import Mathlib

set_option autoImplicit false

/-!
A shallow embedding of the generator-orchestration core of the gqlc
GraphQL IDL compiler, together with proofs about it.

The embedding covers:
* the plugin wire protocol (`Request` / `Response`, from the proto schema),
* the plugin executor `plugin.Generator.Generate` (src/plugin/plugin.go),
* the compile pipeline driver `runRoot` (src/cmd/gqlc/root.go),
* the CLI entry point `CommandLine.Run` (src/cmd/cli.go).

External effects (executable lookup, process execution, protobuf
encoding, the filesystem) are supplied as oracle functions bundled in
environment structures, and every filesystem-visible action of the
executor is recorded in an explicit event trace so that resource usage
(open / write / close) can be reasoned about.
-/

namespace Gqlc

/-! ## Wire protocol (proto schema, src/unnamed/part_002)

`Document` stands for a parsed `ast.Document`; only its name is ever
inspected by the code under study, so the rest of the tree is abstracted
as an opaque numeric payload distinguishing distinct documents. -/

structure Document where
  name : String
  body : Nat
deriving DecidableEq

/-- One generated file inside a plugin `Response` (message `Response.File`). -/
structure ResponseFile where
  name : String
  content : String
deriving DecidableEq

/-- The plugin writes an encoded `Response` to stdout. -/
structure Response where
  error : String
  file : List ResponseFile
deriving DecidableEq

/-- An encoded `Request` is written to the plugin's stdin. -/
structure Request where
  fileToGenerate : List String
  parameter : String
  documents : List Document
deriving DecidableEq

/-! ## JSON option values

`Generate` starts with `json.Marshal(opts)` where
`opts : map[string]interface{}`.  Values are modelled by a small JSON
universe; the `unsupported` constructor stands for the Go values
(channels, functions, ...) on which `json.Marshal` fails.  The textual
encoding below abstracts the exact JSON syntax — no code under study
ever inspects the encoded text, only whether encoding succeeds. -/

inductive JVal where
  | null
  | bool (b : Bool)
  | num (n : Int)
  | str (s : String)
  | unsupported (desc : String)
deriving DecidableEq

def encodeJVal : JVal → Except String String
  | .null => .ok "null"
  | .bool b => .ok (cond b "true" "false")
  | .num n => .ok (toString n)
  | .str s => .ok s
  | .unsupported d => .error ("json: unsupported type: " ++ d)

/-- `json.Marshal` over the options map. Fails exactly when some value
is an unsupported Go type. -/
def marshalOpts : List (String × JVal) → Except String String
  | [] => .ok ""
  | (k, v) :: rest =>
    match encodeJVal v with
    | .error e => .error e
    | .ok ev =>
      match marshalOpts rest with
      | .error e => .error e
      | .ok er => .ok (k ++ ":" ++ ev ++ ";" ++ er)

/-! ## Output Context

The `gen` package is not part of the sources under study; only its use
sites are.  Its `Open` is therefore modelled from the spec. -/

/-- Split a character sequence into `/`-separated path components. -/
def splitComps : List Char → List (List Char)
  | [] => [[]]
  | c :: cs =>
    let r := splitComps cs
    if c = '/' then [] :: r
    else
      match r with
      | [] => [[c]]
      | h :: t => (c :: h) :: t

/-- Modelled from the spec: validity of a file name returned in a
`Response` (the `gen` package implementing the Output Context is absent
from the sources).  Per the spec, a name must be relative, use `/` as
separator, and contain no `.` or `..` path components. -/
def validFileName (name : String) : Bool :=
  (match name.toList with
   | '/' :: _ => false
   | _ => true) &&
  (!(name.toList.contains '\\')) &&
  ((splitComps name.toList).all fun comp => comp ≠ ['.'] && comp ≠ ['.', '.'])

/-- Modelled from the spec: the Output Context `Open` operation of the
absent `gen` package.  It rejects an unsafe name with an `InvalidPath`
error and otherwise yields a handle scoped to the output directory. -/
def gCtxOpen (name : String) : Except String Unit :=
  if validFileName name then .ok () else .error ("invalid path: " ++ name)

/-! ## Plugin executor (src/plugin/plugin.go) -/

/-- The identity fields of `plugin.Generator` (`Name` and `Prefix`;
the latter is called `Pfx` here because its source spelling is not a
usable Lean identifier). -/
structure PluginGen where
  Name : String
  Pfx : String
deriving DecidableEq

/-- The mutable lookup cache of `plugin.Generator`: `lookOnce` is
represented by the `looked` flag, together with the cached `path` and
`lookPathErr` fields. -/
structure GenState where
  looked : Bool
  path : String
  lookErr : Option String
deriving DecidableEq

def initState : GenState := ⟨false, "", none⟩

/-- Result of running the plugin subprocess (`g.Run()`): either exit
status 0 with captured stdout bytes, or any process-level failure
(start error, non-zero exit, context cancellation). -/
inductive ExecResult where
  | exit0 (stdout : List Nat)
  | failed (msg : String)
deriving DecidableEq

/-- Observable filesystem / environment events of one `Generate` call. -/
inductive FsEvent where
  | lookup (pname : String)
  | openFile (name : String)
  | writeF (name : String) (content : String)
  | closeF (name : String)
deriving DecidableEq

/-- `gen.GeneratorError`: every error leaving the executor carries the
generator identity and the document name. -/
structure GeneratorError where
  GenName : String
  DocName : String
  Msg : String
deriving DecidableEq

/-- The ambient environment of one executor: `exec.LookPath`,
`proto.Marshal`, subprocess execution, `proto.Unmarshal`, and the
outcome of writing content through an opened handle (`none` = success,
`some e` = I/O failure). -/
structure PluginEnv where
  lookPath : String → Except String String
  protoMarshal : Request → Except String (List Nat)
  runCmd : String → List Nat → ExecResult
  writeFile : String → String → Option String
  protoUnmarshal : List Nat → Except String Response

/-- The `lookOnce.Do` step: resolve the executable path at most once
per `Generator` instance, caching either the path or the failure. -/
def lookupStep (env : PluginEnv) (g : PluginGen) (s : GenState) : GenState × List FsEvent :=
  if s.looked then (s, [])
  else
    match env.lookPath (g.Pfx ++ g.Name) with
    | .ok p => (⟨true, p, none⟩, [.lookup (g.Pfx ++ g.Name)])
    | .error e => (⟨true, s.path, some e⟩, [.lookup (g.Pfx ++ g.Name)])

/-- The response-file loop of `Generate`: open each returned file
through the Output Context and write its content, aborting on the
first failure.  Faithful to the source: no handle is ever closed. -/
def writeFiles (env : PluginEnv) : List ResponseFile → Option String × List FsEvent
  | [] => (none, [])
  | f :: rest =>
    match gCtxOpen f.name with
    | .error e => (some e, [])
    | .ok _ =>
      match env.writeFile f.name f.content with
      | some e => (some e, [.openFile f.name])
      | none =>
        let r := writeFiles env rest
        (r.1, .openFile f.name :: .writeF f.name f.content :: r.2)

/-- The body of `plugin.Generator.Generate` before the deferred error
wrapper: options encoding, cached path lookup, request marshalling,
subprocess execution, response decoding, and file writing, each in the
source's order, returning the new cache state, the raw error (if any)
and the event trace. -/
def rawGenerate (env : PluginEnv) (g : PluginGen) (s : GenState)
    (doc : Document) (opts : List (String × JVal)) :
    GenState × Option String × List FsEvent :=
  match marshalOpts opts with
  | .error e => (s, some e, [])
  | .ok b =>
    let st := lookupStep env g s
    match st.1.lookErr with
    | some e => (st.1, some e, st.2)
    | none =>
      match env.protoMarshal ⟨[doc.name], b, [doc]⟩ with
      | .error e => (st.1, some e, st.2)
      | .ok bytes =>
        match env.runCmd st.1.path bytes with
        | .failed e => (st.1, some e, st.2)
        | .exit0 out =>
          match env.protoUnmarshal out with
          | .error e => (st.1, some e, st.2)
          | .ok resp =>
            if resp.error ≠ "" then (st.1, some resp.error, st.2)
            else
              let r := writeFiles env resp.file
              (st.1, r.1, st.2 ++ r.2)

/-- `plugin.Generator.Generate`: the body plus the deferred wrapper
that tags every non-nil error with the generator identity
(`Prefix + Name`) and the document name. -/
def Generate (env : PluginEnv) (g : PluginGen) (s : GenState)
    (doc : Document) (opts : List (String × JVal)) :
    GenState × Except GeneratorError Unit × List FsEvent :=
  match rawGenerate env g s doc opts with
  | (s1, none, evs) => (s1, .ok (), evs)
  | (s1, some msg, evs) => (s1, .error ⟨g.Pfx ++ g.Name, doc.name, msg⟩, evs)

/-! ## Compile pipeline driver `runRoot` (src/cmd/gqlc/root.go)

`runRoot` accumulates the selected generators from the changed CLI
flags, parses every input file into a `map[string]*ast.Document`, type
checks, and runs every generator over every document.  The Go map is
embedded as an association list updated with last-write-wins insertion;
since Go deliberately leaves map iteration order unspecified, the order
in which each `for _, doc := range docs` loop visits the map is an
explicit parameter (`orders`, one order per generator index), legal
whenever it is a permutation of the map's entries. -/

/-- One CLI flag as seen by `cmd.LocalFlags().VisitAll`: its name and
whether it was changed on the command line. -/
structure Flag where
  name : String
  changed : Bool
deriving DecidableEq

/-- A built-in `compiler.CodeGenerator`, abstracted to an identity. -/
structure CodeGen where
  id : String
deriving DecidableEq

/-- The oracle environment of `runRoot`: `parseDoc` bundles
`filepath.Abs`, `os.Open` and `parser.ParseDoc` for one file name,
`check` is `util.CheckTypes` returning the diagnostic list, and
`genRun` is the outcome of `g.Generate` on one document. -/
structure RootEnv where
  parseDoc : String → Except String Document
  check : List (String × Document) → List String
  genRun : CodeGen → Document → Option String

/-- The flag visitation loop accumulating `gs`: every changed flag
whose name is bound in the `geners` table contributes its generator, in
visitation order. -/
def collectGens : List Flag → List (String × CodeGen) → List CodeGen
  | [], _ => []
  | f :: fs, geners =>
    if f.changed then
      match geners.find? (fun p => p.1 == f.name) with
      | some p => p.2 :: collectGens fs geners
      | none => collectGens fs geners
    else collectGens fs geners

/-- `docs[doc.Name] = doc`: Go map insertion, replacing any entry with
the same key and otherwise adding a new one. -/
def insertDoc (m : List (String × Document)) (d : Document) : List (String × Document) :=
  if m.any (fun p => p.1 == d.name) then
    m.map (fun p => if p.1 == d.name then (p.1, d) else p)
  else m ++ [(d.name, d)]

/-- The parse loop of `runRoot`: each file is resolved, opened and
parsed, aborting with the error on the first failure, and the resulting
document is stored in the map under its derived name. -/
def parseAll (env : RootEnv) : List String → List (String × Document) →
    Except String (List (String × Document))
  | [], m => .ok m
  | f :: fs, m =>
    match env.parseDoc f with
    | .error e => .error e
    | .ok d => parseAll env fs (insertDoc m d)

/-- The inner document loop for one generator: invoke it on each
document in the given (map-iteration) order, stopping at the first
error; the trace records each invoked `(generator, document)` pair. -/
def genDocs (env : RootEnv) (g : CodeGen) :
    List Document → Option String × List (CodeGen × Document)
  | [] => (none, [])
  | d :: ds =>
    match env.genRun g d with
    | some e => (some e, [(g, d)])
    | none =>
      let r := genDocs env g ds
      (r.1, (g, d) :: r.2)

/-- The outer generator loop: generators in `gs` order, each ranging
over the map in its own iteration order `orders i`. -/
def genLoop (env : RootEnv) (orders : Nat → List Document) :
    List CodeGen → Nat → Option String × List (CodeGen × Document)
  | [], _ => (none, [])
  | g :: gs, i =>
    match genDocs env g (orders i) with
    | (some e, t) => (some e, t)
    | (none, t) =>
      let r := genLoop env orders gs (i + 1)
      (r.1, t ++ r.2)

/-- A legal Go run: every map range visits exactly the entries of the
final document map, in some order. -/
def LegalOrders (orders : Nat → List Document) (docs : List (String × Document)) : Prop :=
  ∀ i, (orders i).Perm (docs.map Prod.snd)

/-- `runRoot`: collect the active generators, parse all inputs, type
check, then run the generator loops.  The returned pair is the value of
the named return `err` together with the invocation trace.  Faithful to
the source, the type-check branch executes a bare `return` whose named
`err` is still `nil` at that point (the parse loop shadows `err`
inside the loop body), so it aborts with no error. -/
def runRoot (env : RootEnv) (flags : List Flag) (geners : List (String × CodeGen))
    (args : List String) (orders : Nat → List Document) :
    Option String × List (CodeGen × Document) :=
  let gs := collectGens flags geners
  match parseAll env args [] with
  | .error e => (some e, [])
  | .ok docs =>
    if (env.check docs).length > 0 then (none, [])
    else genLoop env orders gs 0

/-! ## CLI entry point `CommandLine.Run` (src/cmd/cli.go) -/

/-- A Go panic value: either a value implementing `error`, or any other
value (which `Run` renders with the `%#v` verb before wrapping). -/
inductive PanicVal where
  | errVal (msg : String)
  | otherVal (goRepr : String)
deriving DecidableEq

/-- The outcome of executing the cobra command body: a normal return
carrying an optional error, or an uncaught panic. -/
inductive Outcome where
  | ret (e : Option String)
  | panicked (v : PanicVal)

/-- An error returned by `CommandLine.Run`: either the body's own error
passed through, or `wrapPanic`'s wrapper embedding the recovered panic
value and the stack captured by `debug.Stack()`. -/
inductive CLErr where
  | normal (msg : String)
  | recovered (v : PanicVal) (stack : List UInt8)
deriving DecidableEq

/-- `wrapPanic`: wrap a recovered value and captured stack into the
returned error. -/
def wrapPanic (v : PanicVal) (stack : List UInt8) : CLErr := .recovered v stack

/-- Executing the command on already-truncated arguments
(`c.SetArgs(args2); c.Execute()`), with the deferred `recover` of `Run`
converting any panic into a wrapped error. -/
def execBody (body : List String → Outcome) (stack : List UInt8)
    (args2 : List String) : Option CLErr :=
  match body args2 with
  | .ret none => none
  | .ret (some e) => some (.normal e)
  | .panicked v => some (wrapPanic v stack)

/-- `CommandLine.Run`: drops `args[0]` and executes the command.  On an
empty slice, `args[1:]` itself panics with a slice-bounds fault, which
the same deferred `recover` converts into a wrapped error; in every
case `Run` returns instead of re-raising. -/
def clRun (body : List String → Outcome) (stack : List UInt8)
    (args : List String) : Option CLErr :=
  match args with
  | [] => some (wrapPanic (.errVal "runtime error: slice bounds out of range") stack)
  | _ :: rest => execBody body stack rest

/-! ## Theorems -/

/-- C3: every uncaught panic raised during a run — whether the panic
value is an error value or any other value — is converted by
`CommandLine.Run` into a returned error embedding the recovered value
and the captured stack (non-empty, as supplied by `debug.Stack()`);
`Run` is a total function into a returned result, so it never re-raises
the fault or terminates abnormally. -/
theorem run_recovers_all_panics (body : List String → Outcome) (stack : List UInt8)
    (a : String) (rest : List String) (v : PanicVal)
    (hstack : stack ≠ []) (hbody : body rest = .panicked v) :
    clRun body stack (a :: rest) = some (CLErr.recovered v stack) ∧ stack ≠ [] := by
  refine ⟨?_, hstack⟩
  simp [clRun, execBody, hbody, wrapPanic]

/-- Witness for `run_recovers_all_panics` at a concrete panicking body. -/
theorem run_recovers_all_panics_witness :
    clRun (fun _ => Outcome.panicked (.otherVal "42")) [65] ["gqlc"] =
      some (CLErr.recovered (.otherVal "42") [65]) ∧ ([65] : List UInt8) ≠ [] :=
  run_recovers_all_panics (fun _ => Outcome.panicked (.otherVal "42")) [65]
    "gqlc" [] (.otherVal "42") (by decide) rfl

/-- C10: `CommandLine.Run` unconditionally discards the first element
of its argument slice: the executed command sees only the elements from
index 1 on (so the result does not depend on the first element), and a
one-element slice behaves exactly like executing the command with no
arguments at all. -/
theorem run_drops_first_arg (body : List String → Outcome) (stack : List UInt8) :
    (∀ (a c : String) (rest : List String),
        clRun body stack (a :: rest) = clRun body stack (c :: rest)) ∧
    (∀ a : String, clRun body stack [a] = execBody body stack []) :=
  ⟨fun _ _ _ => rfl, fun _ => rfl⟩

/-- C8: every error returned by the plugin executor's `Generate` —
whatever stage produced it — leaves the executor wrapped in a
`gen.GeneratorError` carrying the generator identity (`Prefix + Name`)
and the document's name. -/
theorem generate_errors_attributed (env : PluginEnv) (g : PluginGen) (s : GenState)
    (doc : Document) (opts : List (String × JVal)) (e : GeneratorError)
    (h : (Generate env g s doc opts).2.1 = .error e) :
    e.GenName = g.Pfx ++ g.Name ∧ e.DocName = doc.name := by
  rcases hr : rawGenerate env g s doc opts with ⟨s1, o, evs⟩
  cases o with
  | none => simp [Generate, hr] at h
  | some msg =>
    simp [Generate, hr] at h
    rw [← h]
    exact ⟨rfl, rfl⟩

/-- A concrete environment in which path resolution fails. -/
def envNoPlugin : PluginEnv :=
  ⟨fun _ => .error "exec: gqlc-gen-doc: executable file not found",
   fun _ => .ok [], fun _ _ => .exit0 [], fun _ _ => none, fun _ => .error "bad"⟩

/-- Witness for `generate_errors_attributed`: a failing call whose
returned error carries the expected attribution. -/
theorem generate_errors_attributed_witness :
    (GeneratorError.mk "gqlc-gen-doc" "d"
        "exec: gqlc-gen-doc: executable file not found").GenName = "gqlc-gen-" ++ "doc" ∧
    (GeneratorError.mk "gqlc-gen-doc" "d"
        "exec: gqlc-gen-doc: executable file not found").DocName = "d" :=
  generate_errors_attributed envNoPlugin ⟨"doc", "gqlc-gen-"⟩ initState ⟨"d", 0⟩ []
    ⟨"gqlc-gen-doc", "d", "exec: gqlc-gen-doc: executable file not found"⟩ rfl

/-- C4: a plugin subprocess that exits with status 0 and whose stdout
decodes to a well-formed `Response` with a non-empty `error` field
makes `Generate` fail with the generator-reported message itself —
wrapped with the generator attribution, the `Msg` is exactly the
response's `error` string, not a protocol error. -/
theorem plugin_error_field_reported (env : PluginEnv) (g : PluginGen) (s : GenState)
    (doc : Document) (opts : List (String × JVal)) (b : String)
    (bytes out : List Nat) (resp : Response)
    (hm : marshalOpts opts = .ok b)
    (hl : (lookupStep env g s).1.lookErr = none)
    (hpm : env.protoMarshal ⟨[doc.name], b, [doc]⟩ = .ok bytes)
    (hrun : env.runCmd (lookupStep env g s).1.path bytes = .exit0 out)
    (hun : env.protoUnmarshal out = .ok resp)
    (herr : resp.error ≠ "") :
    (Generate env g s doc opts).2.1 =
      .error ⟨g.Pfx ++ g.Name, doc.name, resp.error⟩ := by
  simp [Generate, rawGenerate, hm, hl, hpm, hrun, hun, herr]

/-- A concrete environment whose plugin exits 0 reporting `boom`. -/
def envBoom : PluginEnv :=
  ⟨fun _ => .ok "/usr/local/bin/gqlc-gen-doc",
   fun _ => .ok [1], fun _ _ => .exit0 [2], fun _ _ => none,
   fun _ => .ok ⟨"boom", []⟩⟩

/-- Witness for `plugin_error_field_reported` on a concrete plugin run
reporting `boom` over exit status 0. -/
theorem plugin_error_field_reported_witness :
    (Generate envBoom ⟨"doc", "gqlc-gen-"⟩ initState ⟨"d", 0⟩ []).2.1 =
      .error ⟨"gqlc-gen-" ++ "doc", "d", "boom"⟩ :=
  plugin_error_field_reported envBoom ⟨"doc", "gqlc-gen-"⟩ initState ⟨"d", 0⟩ []
    "" [1] [2] ⟨"boom", []⟩ rfl rfl rfl rfl rfl (by decide)

/-! ### Path safety and resource lemmas -/

/-- Write events emitted by the response-file loop only ever carry
names accepted by the Output Context. -/
theorem writeFiles_writes_valid (env : PluginEnv) (fs : List ResponseFile)
    (n c : String) (h : FsEvent.writeF n c ∈ (writeFiles env fs).2) :
    validFileName n = true := by
  induction fs with
  | nil => simp [writeFiles] at h
  | cons f rest ih =>
    unfold writeFiles at h
    rcases ho : gCtxOpen f.name with e | u
    · simp [ho] at h
    · rcases hw : env.writeFile f.name f.content with _ | e
      · simp [ho, hw] at h
        rcases h with ⟨hn, -⟩ | h
        · subst hn
          by_cases hv : validFileName f.name = true
          · exact hv
          · simp [gCtxOpen, hv] at ho
        · exact ih h
      · simp [ho, hw] at h

/-- The lookup step emits no write event. -/
theorem lookupStep_no_write (env : PluginEnv) (g : PluginGen) (s : GenState)
    (n c : String) : FsEvent.writeF n c ∉ (lookupStep env g s).2 := by
  unfold lookupStep
  by_cases hl : s.looked
  · simp [hl]
  · rcases he : env.lookPath (g.Pfx ++ g.Name) with e | p <;> simp [hl, he]

/-- When every write succeeds, the response-file loop fails exactly on
the first invalid name, with the Output Context's InvalidPath error. -/
theorem writeFiles_first_invalid (env : PluginEnv) (fs : List ResponseFile)
    (f : ResponseFile)
    (hio : ∀ n c, env.writeFile n c = none)
    (hf : fs.find? (fun x => !validFileName x.name) = some f) :
    (writeFiles env fs).1 = some ("invalid path: " ++ f.name) := by
  induction fs with
  | nil => simp at hf
  | cons f0 rest ih =>
    rw [List.find?_cons] at hf
    by_cases hv : validFileName f0.name = true
    · simp only [hv, Bool.not_true] at hf
      simp [writeFiles, gCtxOpen, hv, hio]
      exact ih hf
    · have hv' : validFileName f0.name = false := by simpa using hv
      simp only [hv', Bool.not_false] at hf
      cases hf
      simp [writeFiles, gCtxOpen, hv']

/-- C5: under a normally functioning filesystem, a plugin `Response`
containing a file whose name is absolute or has a `.` or `..`
component makes `Generate` fail with the Output Context's InvalidPath
error for the first such name; and in every execution whatsoever, only
names accepted by the Output Context ever produce a write. -/
theorem unsafe_names_rejected (env : PluginEnv) (g : PluginGen) (s : GenState)
    (doc : Document) (opts : List (String × JVal)) (b : String)
    (bytes out : List Nat) (resp : Response) (f : ResponseFile)
    (hm : marshalOpts opts = .ok b)
    (hl : (lookupStep env g s).1.lookErr = none)
    (hpm : env.protoMarshal ⟨[doc.name], b, [doc]⟩ = .ok bytes)
    (hrun : env.runCmd (lookupStep env g s).1.path bytes = .exit0 out)
    (hun : env.protoUnmarshal out = .ok resp)
    (hok : resp.error = "")
    (hio : ∀ n c, env.writeFile n c = none)
    (hbad : resp.file.find? (fun x => !validFileName x.name) = some f) :
    (Generate env g s doc opts).2.1 =
      .error ⟨g.Pfx ++ g.Name, doc.name, "invalid path: " ++ f.name⟩ ∧
    (∀ (env' : PluginEnv) (g' : PluginGen) (s' : GenState) (doc' : Document)
        (opts' : List (String × JVal)) (n c : String),
      FsEvent.writeF n c ∈ (Generate env' g' s' doc' opts' ).2.2 →
      validFileName n = true) := by
  constructor
  · have hw := writeFiles_first_invalid env resp.file f hio hbad
    simp [Generate, rawGenerate, hm, hl, hpm, hrun, hun, hok, hw]
  · intro env' g' s' doc' opts' n c h
    have htr : FsEvent.writeF n c ∈ (rawGenerate env' g' s' doc' opts' ).2.2 := by
      rcases hr : rawGenerate env' g' s' doc' opts' with ⟨s1, o, evs⟩
      cases o <;> simpa [Generate, hr] using h
    unfold rawGenerate at htr
    rcases hm' : marshalOpts opts' with e | b'
    · simp [hm'] at htr
    · simp only [hm'] at htr
      rcases hle : (lookupStep env' g' s').1.lookErr with _ | e
      · simp only [hle] at htr
        rcases hpm' : env'.protoMarshal ⟨[doc'.name], b', [doc']⟩ with e | bytes'
        · simp [hpm'] at htr
          exact absurd htr (lookupStep_no_write env' g' s' n c)
        · simp only [hpm'] at htr
          rcases hrun' : env'.runCmd (lookupStep env' g' s').1.path bytes' with out' | e
          · simp only [hrun'] at htr
            rcases hun' : env'.protoUnmarshal out' with e | resp'
            · simp [hun'] at htr
              exact absurd htr (lookupStep_no_write env' g' s' n c)
            · simp only [hun'] at htr
              by_cases hre : resp'.error = ""
              · simp [hre] at htr
                rcases htr with hin | hin
                · exact absurd hin (lookupStep_no_write env' g' s' n c)
                · exact writeFiles_writes_valid env' resp'.file n c hin
              · simp [hre] at htr
                exact absurd htr (lookupStep_no_write env' g' s' n c)
          · simp [hrun'] at htr
            exact absurd htr (lookupStep_no_write env' g' s' n c)
      · simp [hle] at htr
        exact absurd htr (lookupStep_no_write env' g' s' n c)

/-- A concrete environment whose plugin succeeds with the single
well-formed output file `a.txt`. -/
def envLeak : PluginEnv :=
  ⟨fun _ => .ok "/usr/local/bin/gqlc-gen-doc",
   fun _ => .ok [1], fun _ _ => .exit0 [2], fun _ _ => none,
   fun _ => .ok ⟨"", [⟨"a.txt", "hi"⟩]⟩⟩

def isClose : FsEvent → Bool
  | .closeF _ => true
  | _ => false

def isOpen : FsEvent → Bool
  | .openFile _ => true
  | _ => false

def isLookup : FsEvent → Bool
  | .lookup _ => true
  | _ => false

/-- C6 counterexample: a successful plugin invocation writing one file
obtains one handle from the Output Context and closes it zero times —
the executor's `Generate` contains no `Close` call, so the handle
leaks even on the success path. -/
theorem generate_leaks_handle_cex :
    (Generate envLeak ⟨"doc", "gqlc-gen-"⟩ initState ⟨"d", 0⟩ []).2.1 = .ok () ∧
    (Generate envLeak ⟨"doc", "gqlc-gen-"⟩ initState ⟨"d", 0⟩ []).2.2.countP isOpen = 1 ∧
    (Generate envLeak ⟨"doc", "gqlc-gen-"⟩ initState ⟨"d", 0⟩ []).2.2.countP isClose = 0 :=
  ⟨rfl, rfl, rfl⟩

/-- No event of the lookup step is a close. -/
theorem lookupStep_no_close (env : PluginEnv) (g : PluginGen) (s : GenState) :
    ∀ e ∈ (lookupStep env g s).2, isClose e = false := by
  intro e he
  unfold lookupStep at he
  by_cases hl : s.looked
  · simp [hl] at he
  · rcases hp : env.lookPath (g.Pfx ++ g.Name) with er | p <;>
      simp [hl, hp] at he <;> simp [he, isClose]

/-- No event of the response-file loop is a close. -/
theorem writeFiles_no_close (env : PluginEnv) (fs : List ResponseFile) :
    ∀ e ∈ (writeFiles env fs).2, isClose e = false := by
  induction fs with
  | nil => intro e he; simp [writeFiles] at he
  | cons f rest ih =>
    intro e he
    unfold writeFiles at he
    rcases ho : gCtxOpen f.name with er | u
    · simp [ho] at he
    · rcases hw : env.writeFile f.name f.content with _ | er
      · simp [ho, hw] at he
        rcases he with he | he | he
        · simp [he, isClose]
        · simp [he, isClose]
        · exact ih e he
      · simp [ho, hw] at he
        simp [he, isClose]

/-- No event of the executor body is a close. -/
theorem rawGenerate_no_close (env : PluginEnv) (g : PluginGen) (s : GenState)
    (doc : Document) (opts : List (String × JVal)) :
    ∀ e ∈ (rawGenerate env g s doc opts).2.2, isClose e = false := by
  intro e he
  unfold rawGenerate at he
  rcases hm : marshalOpts opts with er | b
  · simp [hm] at he
  · simp only [hm] at he
    rcases hle : (lookupStep env g s).1.lookErr with _ | er
    · simp only [hle] at he
      rcases hpm : env.protoMarshal ⟨[doc.name], b, [doc]⟩ with er | bytes
      · simp [hpm] at he
        exact lookupStep_no_close env g s e he
      · simp only [hpm] at he
        rcases hrun : env.runCmd (lookupStep env g s).1.path bytes with out | er
        · simp only [hrun] at he
          rcases hun : env.protoUnmarshal out with er | resp
          · simp [hun] at he
            exact lookupStep_no_close env g s e he
          · simp only [hun] at he
            by_cases hre : resp.error = ""
            · simp [hre] at he
              rcases he with he | he
              · exact lookupStep_no_close env g s e he
              · exact writeFiles_no_close env resp.file e he
            · simp [hre] at he
              exact lookupStep_no_close env g s e he
        · simp [hrun] at he
          exact lookupStep_no_close env g s e he
    · simp [hle] at he
      exact lookupStep_no_close env g s e he

/-- C6 amended: the plugin executor never closes any output file
handle it obtains — on every input, environment, and exit path the
event trace of `Generate` contains zero close events (the `js`
generator, by contrast, closes its single handle through a deferred
call; the executor has no close at all). -/
theorem generate_never_closes (env : PluginEnv) (g : PluginGen) (s : GenState)
    (doc : Document) (opts : List (String × JVal)) :
    (Generate env g s doc opts).2.2.countP isClose = 0 := by
  have h := rawGenerate_no_close env g s doc opts
  rcases hr : rawGenerate env g s doc opts with ⟨s1, o, evs⟩
  rw [hr] at h
  have htr : (Generate env g s doc opts).2.2 = evs := by
    cases o <;> simp [Generate, hr]
  rw [htr, List.countP_eq_zero]
  intro a ha
  simp [h a ha]

/-- C7 counterexample: on a fresh `Generator` instance, a first call
whose options map fails to JSON-encode returns before the cached
lookup is ever attempted: the cache flag is still unset, no lookup
event occurs, and the call fails with the encoding error — so path
resolution does not happen in the first `generate` call. -/
theorem first_call_no_resolution_cex :
    (Generate envLeak ⟨"doc", "gqlc-gen-"⟩ initState ⟨"d", 0⟩
        [("x", JVal.unsupported "chan int")]).1.looked = false ∧
    (Generate envLeak ⟨"doc", "gqlc-gen-"⟩ initState ⟨"d", 0⟩
        [("x", JVal.unsupported "chan int")]).2.2.countP isLookup = 0 ∧
    (Generate envLeak ⟨"doc", "gqlc-gen-"⟩ initState ⟨"d", 0⟩
        [("x", JVal.unsupported "chan int")]).2.1 =
      .error ⟨"gqlc-gen-" ++ "doc", "d", "json: unsupported type: " ++ "chan int"⟩ :=
  ⟨rfl, rfl, rfl⟩

/-- C7 amended: path resolution happens at most once per `Generator`
instance, performed by the first call that reaches the resolution step
(its options encode successfully); the outcome is cached, and every
subsequent call reuses it — in particular a cached resolution failure
is returned again, wrapped for the new document, with no further
lookup attempt. -/
theorem resolution_once_then_cached (env : PluginEnv) (g : PluginGen)
    (doc doc' : Document) (opts opts' : List (String × JVal)) (b b' e : String)
    (hlook : env.lookPath (g.Pfx ++ g.Name) = .error e)
    (hm : marshalOpts opts = .ok b) (hm' : marshalOpts opts' = .ok b') :
    Generate env g initState doc opts =
      (⟨true, "", some e⟩, .error ⟨g.Pfx ++ g.Name, doc.name, e⟩,
        [.lookup (g.Pfx ++ g.Name)]) ∧
    Generate env g (Generate env g initState doc opts).1 doc' opts' =
      (⟨true, "", some e⟩, .error ⟨g.Pfx ++ g.Name, doc'.name, e⟩, []) := by
  have h1 : Generate env g initState doc opts =
      (⟨true, "", some e⟩, .error ⟨g.Pfx ++ g.Name, doc.name, e⟩,
        [.lookup (g.Pfx ++ g.Name)]) := by
    simp [Generate, rawGenerate, lookupStep, initState, hm, hlook]
  refine ⟨h1, ?_⟩
  rw [h1]
  simp [Generate, rawGenerate, lookupStep, hm']

/-- Witness for `resolution_once_then_cached`: two consecutive calls
against an environment without the plugin executable; the second call
reuses the cached failure with an empty event trace. -/
theorem resolution_once_then_cached_witness :
    Generate envNoPlugin ⟨"doc", "gqlc-gen-"⟩ initState ⟨"d", 0⟩ [] =
      (⟨true, "", some "exec: gqlc-gen-doc: executable file not found"⟩,
        .error ⟨"gqlc-gen-" ++ "doc", "d",
          "exec: gqlc-gen-doc: executable file not found"⟩,
        [.lookup ("gqlc-gen-" ++ "doc")]) ∧
    Generate envNoPlugin ⟨"doc", "gqlc-gen-"⟩
        (Generate envNoPlugin ⟨"doc", "gqlc-gen-"⟩ initState ⟨"d", 0⟩ []).1
        ⟨"d2", 1⟩ [] =
      (⟨true, "", some "exec: gqlc-gen-doc: executable file not found"⟩,
        .error ⟨"gqlc-gen-" ++ "doc", "d2",
          "exec: gqlc-gen-doc: executable file not found"⟩, []) :=
  resolution_once_then_cached envNoPlugin ⟨"doc", "gqlc-gen-"⟩ ⟨"d", 0⟩ ⟨"d2", 1⟩
    [] [] "" "" "exec: gqlc-gen-doc: executable file not found" rfl rfl rfl

/-- A concrete environment whose plugin returns a traversal name. -/
def envEvil : PluginEnv :=
  ⟨fun _ => .ok "/usr/local/bin/gqlc-gen-doc",
   fun _ => .ok [1], fun _ _ => .exit0 [2], fun _ _ => none,
   fun _ => .ok ⟨"", [⟨"../evil.txt", "x"⟩]⟩⟩

/-- Witness for `unsafe_names_rejected`: a plugin returning
`../evil.txt` is rejected with the InvalidPath error and no write. -/
theorem unsafe_names_rejected_witness :
    (Generate envEvil ⟨"doc", "gqlc-gen-"⟩ initState ⟨"d", 0⟩ []).2.1 =
      .error ⟨"gqlc-gen-" ++ "doc", "d", "invalid path: " ++ "../evil.txt"⟩ ∧
    (∀ (env' : PluginEnv) (g' : PluginGen) (s' : GenState) (doc' : Document)
        (opts' : List (String × JVal)) (n c : String),
      FsEvent.writeF n c ∈ (Generate env' g' s' doc' opts' ).2.2 →
      validFileName n = true) :=
  unsafe_names_rejected envEvil ⟨"doc", "gqlc-gen-"⟩ initState ⟨"d", 0⟩ []
    "" [1] [2] ⟨"", [⟨"../evil.txt", "x"⟩]⟩ ⟨"../evil.txt", "x"⟩
    rfl rfl rfl rfl rfl rfl (fun _ _ => rfl) rfl

/-! ### Pipeline theorems -/

/-- C1 (code bug in the source): when type checking yields one or more
diagnostics, `runRoot` aborts before invoking any generator — but it
executes a bare `return` whose named `err` is still nil (the claimed
non-nil error is never produced; the source marks this with a TODO),
so the run exits successfully. -/
theorem check_diagnostics_abort_without_error (env : RootEnv) (flags : List Flag)
    (geners : List (String × CodeGen)) (args : List String)
    (orders : Nat → List Document) (docs : List (String × Document))
    (hp : parseAll env args [] = .ok docs)
    (hc : 0 < (env.check docs).length) :
    runRoot env flags geners args orders = (none, []) := by
  simp [runRoot, hp, hc]

/-- A concrete pipeline environment whose checker reports one
diagnostic on every input. -/
def envDiag : RootEnv :=
  ⟨fun _ => .ok ⟨"a", 0⟩, fun _ => ["diagnostic"], fun _ _ => none⟩

/-- Witness for `check_diagnostics_abort_without_error`: a checked run
with one diagnostic invokes no generator and returns no error. -/
theorem check_diagnostics_abort_without_error_witness :
    runRoot envDiag [⟨"doc_out", true⟩] [("doc_out", ⟨"doc"⟩)] ["a.gql"]
      (fun _ => []) = (none, []) :=
  check_diagnostics_abort_without_error envDiag [⟨"doc_out", true⟩]
    [("doc_out", ⟨"doc"⟩)] ["a.gql"] (fun _ => []) [("a", ⟨"a", 0⟩)] rfl (by decide)

/-- When every generator invocation succeeds, the document loop visits
the whole iteration order. -/
theorem genDocs_all_success (env : RootEnv) (g : CodeGen) (ds : List Document)
    (hg : ∀ d, env.genRun g d = none) :
    genDocs env g ds = (none, ds.map (fun d => (g, d))) := by
  induction ds with
  | nil => rfl
  | cons d ds ih => simp [genDocs, hg d, ih]

/-- With all invocations succeeding and every map-iteration order a
permutation of the same document list, two generator loops succeed and
their traces are permutations of each other. -/
theorem genLoop_trace_perm (env : RootEnv) (docsList : List Document)
    (gs : List CodeGen) (orders orders' : Nat → List Document) (i i' : Nat)
    (hg : ∀ g d, env.genRun g d = none)
    (ho : ∀ j, (orders j).Perm docsList) (ho' : ∀ j, (orders' j).Perm docsList) :
    (genLoop env orders gs i).1 = none ∧ (genLoop env orders' gs i').1 = none ∧
    (genLoop env orders gs i).2.Perm (genLoop env orders' gs i').2 := by
  induction gs generalizing i i' with
  | nil => exact ⟨rfl, rfl, List.Perm.refl _⟩
  | cons g gs ih =>
    obtain ⟨ha, hb, hperm⟩ := ih (i + 1) (i' + 1)
    refine ⟨?_, ?_, ?_⟩
    · simp [genLoop, genDocs_all_success env g _ (fun d => hg g d), ha]
    · simp [genLoop, genDocs_all_success env g _ (fun d => hg g d), hb]
    · simp only [genLoop, genDocs_all_success env g _ (fun d => hg g d)]
      exact List.Perm.append
        (((ho i).trans (ho' i').symm).map (fun d => (g, d))) hperm

/-- C2 (amended): for fixed inputs, flags and registered generators,
the outcome and the multiset of `(generator, document)` invocations are
the same across all legal Go map-iteration orders — generators are
invoked in flag-visitation order, but the documents of each generator
are visited in an unspecified map order, so only the multiset (not the
sequence) of invocations is determined by the inputs. -/
theorem invocation_multiset_deterministic (env : RootEnv) (flags : List Flag)
    (geners : List (String × CodeGen)) (args : List String)
    (orders orders' : Nat → List Document) (docs : List (String × Document))
    (hp : parseAll env args [] = .ok docs)
    (hc : env.check docs = [])
    (hg : ∀ g d, env.genRun g d = none)
    (ho : LegalOrders orders docs) (ho' : LegalOrders orders' docs) :
    (runRoot env flags geners args orders).1 = none ∧
    (runRoot env flags geners args orders).2.Perm
      (runRoot env flags geners args orders').2 := by
  have h := genLoop_trace_perm env (docs.map Prod.snd) (collectGens flags geners)
    orders orders' 0 0 hg ho ho'
  simp only [runRoot, hp, hc, List.length_nil, gt_iff_lt, Nat.lt_irrefl, if_false]
  exact ⟨h.1, h.2.2⟩

/-- Two documents with distinct derived names. -/
def docA : Document := ⟨"a", 1⟩

def docB : Document := ⟨"b", 0⟩

def gDoc : CodeGen := ⟨"doc"⟩

/-- A pipeline environment parsing `b.gql` to document `b` and every
other file to document `a`, with a silent checker and generators. -/
def envTwo : RootEnv :=
  ⟨fun f => if f = "b.gql" then .ok docB else .ok docA, fun _ => [], fun _ _ => none⟩

/-- C2 counterexample: with input files parsed in the order `b`, `a`,
both document visit orders are legal Go map iterations, yet one run
invokes the documents as `a`, `b` — not in parse order — and the two
runs produce different invocation sequences for identical inputs. -/
theorem doc_order_not_parse_order_cex :
    LegalOrders (fun _ => [docA, docB]) [("b", docB), ("a", docA)] ∧
    LegalOrders (fun _ => [docB, docA]) [("b", docB), ("a", docA)] ∧
    parseAll envTwo ["b.gql", "a.gql"] [] = .ok [("b", docB), ("a", docA)] ∧
    runRoot envTwo [⟨"doc_out", true⟩] [("doc_out", gDoc)] ["b.gql", "a.gql"]
        (fun _ => [docA, docB]) = (none, [(gDoc, docA), (gDoc, docB)]) ∧
    runRoot envTwo [⟨"doc_out", true⟩] [("doc_out", gDoc)] ["b.gql", "a.gql"]
        (fun _ => [docB, docA]) = (none, [(gDoc, docB), (gDoc, docA)]) ∧
    [(gDoc, docA), (gDoc, docB)] ≠ [(gDoc, docB), (gDoc, docA)] := by
  refine ⟨fun _ => List.Perm.swap docB docA [], fun _ => List.Perm.refl _,
    rfl, rfl, rfl, by decide⟩

/-- Every pair in a document-loop trace carries the loop's generator
and a document of its iteration order. -/
theorem genDocs_mem (env : RootEnv) (g : CodeGen) (ds : List Document)
    (p : CodeGen × Document) (h : p ∈ (genDocs env g ds).2) :
    p.1 = g ∧ p.2 ∈ ds := by
  induction ds with
  | nil => simp [genDocs] at h
  | cons d ds ih =>
    unfold genDocs at h
    rcases hr : env.genRun g d with _ | e
    · simp only [hr] at h
      rcases List.mem_cons.mp h with h | h
      · subst h
        exact ⟨rfl, List.mem_cons_self d ds⟩
      · obtain ⟨h1, h2⟩ := ih h
        exact ⟨h1, List.mem_cons_of_mem d h2⟩
    · simp only [hr, List.mem_singleton] at h
      subst h
      exact ⟨rfl, List.mem_cons_self d ds⟩

/-- Every document invoked by the generator loop comes from one of the
map-iteration orders. -/
theorem genLoop_mem (env : RootEnv) (orders : Nat → List Document)
    (gs : List CodeGen) (i : Nat) (p : CodeGen × Document)
    (h : p ∈ (genLoop env orders gs i).2) :
    ∃ j, p.2 ∈ orders j := by
  induction gs generalizing i with
  | nil => simp [genLoop] at h
  | cons g gs ih =>
    unfold genLoop at h
    rcases hr : genDocs env g (orders i) with ⟨o, t⟩
    cases o with
    | some e =>
      simp only [hr] at h
      exact ⟨i, (genDocs_mem env g (orders i) p (by rw [hr]; exact h)).2⟩
    | none =>
      simp only [hr] at h
      rcases List.mem_append.mp h with h | h
      · exact ⟨i, (genDocs_mem env g (orders i) p (by rw [hr]; exact h)).2⟩
      · exact ih (i + 1) h

/-- C9: two input files whose parsed documents share a derived name
make the pipeline silently keep only the last-parsed document — the
map insert replaces the earlier entry, parsing reports no error, and
on every legal run every generator invocation receives the last
document only. -/
theorem duplicate_doc_names_last_wins (env : RootEnv) (f1 f2 : String)
    (d1 d2 : Document)
    (h1 : env.parseDoc f1 = .ok d1) (h2 : env.parseDoc f2 = .ok d2)
    (hn : d1.name = d2.name) :
    parseAll env [f1, f2] [] = .ok [(d2.name, d2)] ∧
    ∀ (flags : List Flag) (geners : List (String × CodeGen))
      (orders : Nat → List Document),
      LegalOrders orders [(d2.name, d2)] →
      ∀ p ∈ (runRoot env flags geners [f1, f2] orders).2, p.2 = d2 := by
  have hpa : parseAll env [f1, f2] [] = .ok [(d2.name, d2)] := by
    simp [parseAll, h1, h2, insertDoc, hn]
  refine ⟨hpa, ?_⟩
  intro flags geners orders hleg p hp
  simp only [runRoot, hpa] at hp
  by_cases hck : 0 < (env.check [(d2.name, d2)]).length
  · simp [hck] at hp
  · simp only [gt_iff_lt, hck, if_false] at hp
    obtain ⟨j, hj⟩ := genLoop_mem env orders (collectGens flags geners) 0 p hp
    have := hleg j
    rw [show ([(d2.name, d2)].map Prod.snd) = [d2] from rfl] at this
    rw [List.perm_singleton.mp this] at hj
    simpa using hj

/-- A pipeline environment in which two different files parse to
distinct documents sharing the derived name `a`. -/
def envDup : RootEnv :=
  ⟨fun f => if f = "x.gql" then .ok ⟨"a", 0⟩ else .ok ⟨"a", 1⟩,
   fun _ => [], fun _ _ => none⟩

/-- Witness for `duplicate_doc_names_last_wins` on two concrete files
parsing to same-named documents. -/
theorem duplicate_doc_names_last_wins_witness :
    parseAll envDup ["x.gql", "y.gql"] [] = .ok [("a", ⟨"a", 1⟩)] ∧
    ∀ (flags : List Flag) (geners : List (String × CodeGen))
      (orders : Nat → List Document),
      LegalOrders orders [("a", ⟨"a", 1⟩)] →
      ∀ p ∈ (runRoot envDup flags geners ["x.gql", "y.gql"] orders).2,
        p.2 = (⟨"a", 1⟩ : Document) :=
  duplicate_doc_names_last_wins envDup "x.gql" "y.gql" ⟨"a", 0⟩ ⟨"a", 1⟩
    rfl rfl rfl

/-- Witness for `invocation_multiset_deterministic`: the two legal runs
of the counterexample environment have permuted traces. -/
theorem invocation_multiset_deterministic_witness :
    (runRoot envTwo [⟨"doc_out", true⟩] [("doc_out", gDoc)] ["b.gql", "a.gql"]
        (fun _ => [docA, docB])).1 = none ∧
    (runRoot envTwo [⟨"doc_out", true⟩] [("doc_out", gDoc)] ["b.gql", "a.gql"]
        (fun _ => [docA, docB])).2.Perm
      (runRoot envTwo [⟨"doc_out", true⟩] [("doc_out", gDoc)] ["b.gql", "a.gql"]
        (fun _ => [docB, docA])).2 :=
  invocation_multiset_deterministic envTwo [⟨"doc_out", true⟩] [("doc_out", gDoc)]
    ["b.gql", "a.gql"] (fun _ => [docA, docB]) (fun _ => [docB, docA])
    [("b", docB), ("a", docA)] rfl rfl (fun _ _ => rfl)
    (fun _ => List.Perm.swap docB docA []) (fun _ => List.Perm.refl _)

end Gqlc
